import Mathlib

set_option maxRecDepth 8192

/-!
Verification of the daily-puzzle generation pipeline of the `tally` repository
(`api/cron/generate-game.ts`, with its twin `scripts/game-generator/src/select-ship.ts`).

The TypeScript source is shallowly embedded: pure functions become Lean
functions over `Nat` / `Int` / `String` / `List`; the effectful calls
(SPARQL queries, `Math.random`, the remove.bg fetch, the used-ship store,
`Date` parsing, URI encoding) become explicit inputs or small oracle records,
so every run of the TypeScript state machine corresponds to one evaluation of
the Lean function on the corresponding inputs.
-/

namespace Tally

/-! ## JS string primitives

`String.prototype.includes`, `String.prototype.trim`, `Array.prototype.join`,
`String.prototype.toLowerCase` (the source only feeds ASCII into the last one,
where `String.toLower` agrees with JS). -/

/-- Char-list form of JS `includes`: the pattern occurs contiguously. -/
def charsContain (pat : List Char) : List Char → Bool
  | [] => pat.isEmpty
  | c :: rest => pat.isPrefixOf (c :: rest) || charsContain pat rest

/-- JS `s.includes(pat)`. -/
def strContains (s pat : String) : Bool :=
  charsContain pat.data s.data

/-- Char-list form of JS `trim`: drop whitespace from both ends. -/
def jsTrimList (l : List Char) : List Char :=
  ((l.dropWhile Char.isWhitespace).reverse.dropWhile Char.isWhitespace).reverse

/-- JS `s.trim()`. -/
def jsTrim (s : String) : String :=
  ⟨jsTrimList s.data⟩

/-- JS `toLowerCase`, character-wise (the source only feeds it ASCII, where
JS case folding agrees with `Char.toLower`). -/
def jsToLower (s : String) : String := ⟨s.data.map Char.toLower⟩

/-- JS `array.join(sep)` for an explicit separator. -/
def jsJoin (sep : String) : List String → String
  | [] => ""
  | [x] => x
  | x :: y :: rest => x ++ sep ++ jsJoin sep (y :: rest)

/-! ## ImagePipeline compositing (`generateLineArtFromUrl`, lines 746-764)

The per-pixel loop reads the foreground alpha byte from the (possibly
degraded) stage-3 output and the luminance byte from the Laplace edge map;
the output buffer is zero-initialised (`Buffer.alloc`), so a pixel not taken
by the branch stays `(0,0,0,0)`. -/

/-- One RGBA output pixel of the compositing loop:
`if (origAlpha > 128 && edgeVal < 180) { 0,0,0, min(255,(180-edgeVal)*2) }`
else the zero-filled buffer value. -/
def compositePixel (origAlpha edgeVal : Nat) : Nat × Nat × Nat × Nat :=
  if origAlpha > 128 ∧ edgeVal < 180 then
    (0, 0, 0, min 255 ((180 - edgeVal) * 2))
  else
    (0, 0, 0, 0)

/-- The whole composited frame: pixel `i` of the output as a function of the
alpha plane and the edge plane (the source loop runs `i` over `width*height`). -/
def compositeImage (origAlpha edgeVal : Nat → Nat) : Nat → Nat × Nat × Nat × Nat :=
  fun i => compositePixel (origAlpha i) (edgeVal i)

/-- Alpha channel of a composited pixel. -/
def pixelAlpha (p : Nat × Nat × Nat × Nat) : Nat := p.2.2.2

/-! ## Background removal (`removeBackgroundWithAPI`, lines 676-706)

The single fetch to the remove.bg endpoint is modelled by its observable
outcome.  The source has no try/catch around the fetch, so a rejected promise
(network error, client-side timeout) propagates to the caller; a completed
non-2xx response and a missing `REMOVEBG_API_KEY` both fall back to the input
buffer. -/

/-- Observable outcome of the remove.bg fetch: a 2xx response with body bytes,
a completed non-2xx response, or a rejected promise. -/
inductive FetchOutcome where
  | ok (body : List Nat)
  | httpError (status : Nat) (body : String)
  | thrown (message : String)
deriving DecidableEq

/-- Embedding of `removeBackgroundWithAPI`: `Except.error` is a thrown JS
exception reaching the caller. -/
def removeBackgroundWithAPI (apiKey : Option String) (outcome : FetchOutcome)
    (imageBuffer : List Nat) : Except String (List Nat) :=
  match apiKey with
  | none => .ok imageBuffer
  | some _ =>
    match outcome with
    | .thrown message => .error message
    | .httpError _ _ => .ok imageBuffer
    | .ok body => .ok body

/-! ## Query builders (`buildYearFilter`, `buildCountQuery`, `buildShipQuery`)

The SPARQL query text is reproduced verbatim (literal braces appear as their
escape codes).  `ModeConfig` mirrors the TypeScript interface, with `Option`
for the nullable year bounds. -/

/-- Mirrors the TypeScript `ModeConfig` (the `id` is kept as a plain string). -/
structure ModeConfig where
  id : String
  name : String
  yearMin : Option Int
  yearMax : Option Int
  shipTypes : List String
deriving DecidableEq

/-- The `main` entry of the `GAME_MODES` table. -/
def GAME_MODES_main : ModeConfig :=
  { id := "main", name := "Daily Keel", yearMin := some 1980, yearMax := none,
    shipTypes := ["Q174736", "Q182531", "Q17205", "Q104843", "Q161705", "Q170013", "Q2811", "Q2607934"] }

/-- Embedding of `buildYearFilter` (both bounds, lower only, upper only, none). -/
def buildYearFilter (mode : ModeConfig) : String :=
  match mode.yearMin, mode.yearMax with
  | some lo, some hi =>
      "FILTER(YEAR(?commissioned) >= " ++ toString lo ++ " && YEAR(?commissioned) <= " ++ toString hi ++ ")"
  | some lo, none => "FILTER(YEAR(?commissioned) >= " ++ toString lo ++ ")"
  | none, some hi => "FILTER(YEAR(?commissioned) <= " ++ toString hi ++ ")"
  | none, none => ""

/-- The `excludeFilter` local of both builders: a `NOT IN` filter over the
exclusion ids when the list is non-empty, the empty string otherwise. -/
def buildExcludeFilter (excludeIds : List String) : String :=
  if excludeIds.length > 0 then
    "FILTER(?ship NOT IN (" ++ jsJoin (", ") (excludeIds.map (fun id => "wd:" ++ id)) ++ "))"
  else ""

/-- The `typeValues` local of both builders. -/
def buildTypeValues (mode : ModeConfig) : String :=
  jsJoin (" ") (mode.shipTypes.map (fun t => "wd:" ++ t))

/-- Template text of `buildCountQuery` before the exclusion filter (the part
interpolating the type values and the year filter). -/
def countQueryHead (mode : ModeConfig) : String :=
  "\nSELECT (COUNT(DISTINCT ?ship) AS ?count)\nWHERE \x7b\n  VALUES ?type \x7b "
    ++ buildTypeValues mode
    ++ " \x7d\n  ?ship wdt:P31 ?type .\n  ?ship wdt:P18 ?image .\n  ?ship wdt:P729 ?commissioned .\n  ?ship wdt:P289 ?class .\n\n  OPTIONAL \x7b ?ship wdt:P2043 ?length . \x7d\n  OPTIONAL \x7b ?ship wdt:P2386 ?displacement . \x7d\n  FILTER(BOUND(?length) || BOUND(?displacement))\n\n  "
    ++ buildYearFilter mode
    ++ "\n\n  ?ship rdfs:label ?label .\n  FILTER(LANG(?label) = \"en\")\n  FILTER(!STRSTARTS(?label, \"Q\"))\n\n  "

/-- Template text of `buildCountQuery` after the exclusion filter. -/
def countQueryTail : String := "\n\x7d\n  "

/-- Embedding of `buildCountQuery` (template literal, then `.trim()`). -/
def buildCountQuery (excludeIds : List String) (mode : ModeConfig) : String :=
  jsTrim (countQueryHead mode ++ (buildExcludeFilter excludeIds ++ countQueryTail))

/-- Template text of `buildShipQuery` before the exclusion filter. -/
def shipQueryHead (mode : ModeConfig) : String :=
  "\nSELECT DISTINCT\n  ?ship ?shipLabel\n  ?image\n  ?class ?classLabel\n  ?country ?countryLabel\n  ?operator ?operatorLabel\n  ?operatorCountry ?operatorCountryLabel\n  ?length ?displacement\n  ?commissioned\n  ?conflict ?conflictLabel\n  ?decommissioned\n  ?status ?statusLabel\n  ?article\nWHERE \x7b\n  VALUES ?type \x7b "
    ++ buildTypeValues mode
    ++ " \x7d\n  ?ship wdt:P31 ?type .\n  ?ship wdt:P18 ?image .\n  ?ship wdt:P729 ?commissioned .\n  ?ship wdt:P289 ?class .\n\n  OPTIONAL \x7b ?ship wdt:P2043 ?length . \x7d\n  OPTIONAL \x7b ?ship wdt:P2386 ?displacement . \x7d\n  FILTER(BOUND(?length) || BOUND(?displacement))\n\n  "
    ++ buildYearFilter mode
    ++ "\n\n  ?ship rdfs:label ?label .\n  FILTER(LANG(?label) = \"en\")\n  FILTER(!STRSTARTS(?label, \"Q\"))\n\n  "

/-- Template text of `buildShipQuery` after the exclusion filter (the optional
properties, label service, ordering and the interpolated offset). -/
def shipQueryTail (offset : Nat) : String :=
  "\n\n  OPTIONAL \x7b ?ship wdt:P17 ?country . \x7d\n  OPTIONAL \x7b\n    ?ship wdt:P137 ?operator .\n    OPTIONAL \x7b ?operator wdt:P17 ?operatorCountry . \x7d\n  \x7d\n  OPTIONAL \x7b ?ship wdt:P607 ?conflict . \x7d\n  OPTIONAL \x7b ?ship wdt:P730 ?decommissioned . \x7d\n  OPTIONAL \x7b ?ship wdt:P1308 ?status . \x7d\n\n  OPTIONAL \x7b\n    ?article schema:about ?ship ;\n             schema:isPartOf <https://en.wikipedia.org/> .\n  \x7d\n\n  SERVICE wikibase:label \x7b bd:serviceParam wikibase:language \"en\" . \x7d\n\x7d\nORDER BY ?shipLabel\nLIMIT 1\nOFFSET "
    ++ (toString offset ++ "\n  ")

/-- Embedding of `buildShipQuery` (template literal, then `.trim()`). -/
def buildShipQuery (excludeIds : List String) (offset : Nat) (mode : ModeConfig) : String :=
  jsTrim (shipQueryHead mode ++ (buildExcludeFilter excludeIds ++ shipQueryTail offset))

/-- Wikidata entity URI prefix that the SPARQL `wd:` abbreviation expands to. -/
def wdEntityPrefix : String := "http://www.wikidata.org/entity/"

/-- Denotation of the exclusion fragment emitted by `buildExcludeFilter` on a
single result binding: an empty exclusion list emits no filter text (no
constraint); a non-empty one emits `FILTER(?ship NOT IN (wd:id1, ...))`, which
holds of a binding exactly when the bound entity URI is none of the listed
entity URIs. -/
def excludeFilterHolds (excludeIds : List String) (shipUri : String) : Prop :=
  excludeIds ≠ [] → shipUri ∉ excludeIds.map (fun id => wdEntityPrefix ++ id)

/-! ## Result rows and aggregation (`parseShipResult`, both copies)

One structure per SPARQL result binding.  Convention: every field the source
reads through a truthiness guard (`row.x?.value`) is an `Option String` whose
`none` covers both an absent binding and a JS-falsy (empty-string) value; the
source code never distinguishes the two.  `ship` and `shipLabel` are read
unguarded and stay plain strings.  The unread URI twins (`class`, `country`,
`operator`, `operatorCountry`, `conflict`, `status`) are omitted. -/

structure WikidataShipResult where
  ship : String
  shipLabel : String
  image : Option String := none
  classLabel : Option String := none
  countryLabel : Option String := none
  operatorLabel : Option String := none
  operatorCountryLabel : Option String := none
  length : Option String := none
  displacement : Option String := none
  commissioned : Option String := none
  decommissioned : Option String := none
  statusLabel : Option String := none
  conflictLabel : Option String := none
  article : Option String := none
deriving DecidableEq

/-- Mirrors the TypeScript `SelectedShip`. -/
structure SelectedShip where
  id : String
  name : String
  imageUrl : String
  className : Option String
  country : Option String
  length : Option String
  displacement : Option String
  commissioned : Option String
  decommissioned : Option String
  status : Option String
  conflicts : List String
  wikipediaTitle : Option String
deriving DecidableEq

/-- Oracles for the JS runtime primitives the parser calls: `new
Date(s).getFullYear()`, `Math.round(parseFloat(s))`, `decodeURIComponent`
(total: the source wraps the one throwing call site in try/catch that keeps
the input, so a total function subsumes it), `encodeURIComponent`, and
`Number.prototype.toLocaleString`. -/
structure JsOracles where
  dateYear : String → Int
  roundParseFloat : String → Int
  decodeURIComp : String → String
  encodeURIComp : String → String
  localeString : Int → String

/-- Embedding of `extractEntityId`'s regex `/Q\d+$/`: leftmost position
holding a `Q` followed by one or more digits running to the end of input. -/
def entityIdAux : List Char → Option (List Char)
  | [] => none
  | c :: rest =>
    if c == 'Q' && !rest.isEmpty && rest.all Char.isDigit then some (c :: rest)
    else entityIdAux rest

/-- Embedding of `extractEntityId`: the regex match if any, else the input. -/
def extractEntityId (uri : String) : String :=
  match entityIdAux uri.data with
  | some l => ⟨l⟩
  | none => uri

/-- Shape of a wellformed entity id: a `Q` followed by one or more digits. -/
def isQid (s : String) : Bool :=
  match s.data with
  | [] => false
  | c :: rest => c == 'Q' && !rest.isEmpty && rest.all Char.isDigit

/-- Embedding of the `^(File:|Image:)/i` strip in `commonsFileToUrl` (the
source file names are ASCII, where `toLower` agrees with JS case folding). -/
def stripFilePrefix (s : String) : String :=
  if ("file:").data.isPrefixOf (jsToLower s).data then ⟨s.data.drop 5⟩
  else if ("image:").data.isPrefixOf (jsToLower s).data then ⟨s.data.drop 6⟩
  else s

/-- Embedding of `commonsFileToUrl`. -/
def commonsFileToUrl (js : JsOracles) (filename : String) : String :=
  let cleanName := stripFilePrefix filename
  let cleanName := js.decodeURIComp cleanName
  let cleanName := cleanName.replace (" ") ("_")
  let encoded := ((js.encodeURIComp cleanName).replace ("%5F") ("_")).replace ("%2F") ("/")
  "https://commons.wikimedia.org/wiki/Special:FilePath/" ++ encoded

/-- JS `s.split('/').pop() || ''`. -/
def lastSegment (s : String) : String :=
  ((s.splitOn ("/")).getLast?).getD ""

/-- Embedding of the `/\/wiki\/(.+)$/` match: leftmost occurrence of `/wiki/`
followed by at least one character; returns the capture (the rest of input). -/
def wikiTitleAux : List Char → Option (List Char)
  | [] => none
  | c :: rest =>
    if ("/wiki/").data.isPrefixOf (c :: rest) && decide (6 ≤ rest.length) then
      some ((c :: rest).drop 6)
    else wikiTitleAux rest

/-- The `conflicts` JS `Set`: fold that appends each first occurrence. -/
def insertSet (l : List String) (x : String) : List String :=
  if x ∈ l then l else l ++ [x]

/-- The conflict-aggregation loop of `parseShipResult`: union of the truthy
`conflictLabel` values across all rows, deduplicated in insertion order. -/
def collectConflicts (results : List WikidataShipResult) : List String :=
  results.foldl
    (fun acc row =>
      match row.conflictLabel with
      | some c => insertSet acc c
      | none => acc) []

/-- The curated recent-conflict token test inside `parseShipResult`. -/
def isRecentConflict (c : String) : Bool :=
  let lower := jsToLower c
  strContains lower ("iraq") || strContains lower ("afghan") ||
  strContains lower ("gulf") || strContains lower ("syria") ||
  strContains lower ("2000") || strContains lower ("2010") ||
  strContains lower ("2020")

/-- Embedding of `parseShipResult` (identical in `api/cron/generate-game.ts`
and `scripts/game-generator/src/select-ship.ts` for every field it reads; the
script copy projects `classLabel` without the null fallback but both callers
only consume it through the same truthy accesses).  The source indexes
`results[0]` and is only called on non-empty row lists; the empty list maps
to `none`. -/
def parseShipResult (js : JsOracles) (results : List WikidataShipResult) : Option SelectedShip :=
  match results with
  | [] => none
  | first :: rest =>
    let conflicts := collectConflicts (first :: rest)
    let country : Option String :=
      match first.countryLabel with
      | some c => some c
      | none =>
        match first.operatorCountryLabel with
        | some c => some c
        | none => first.operatorLabel
    let wikipediaTitle : Option String :=
      match first.article with
      | some a =>
        match wikiTitleAux a.data with
        | some cap => some (js.decodeURIComp (String.replace ⟨cap⟩ ("_") (" ")))
        | none => none
      | none => none
    let decommissioned : Option String :=
      (first.decommissioned).map (fun v => toString (js.dateYear v))
    let status : Option String :=
      match first.statusLabel with
      | some s => some s
      | none =>
        match decommissioned with
        | some d => some ("Decommissioned " ++ d)
        | none =>
          if (conflicts.filter (fun c => isRecentConflict c)).length > 0 then
            some ("Active or recently active")
          else none
    some
      { id := extractEntityId first.ship
        name := first.shipLabel
        imageUrl :=
          match first.image with
          | some img => commonsFileToUrl js (lastSegment img)
          | none => ""
        className := first.classLabel
        country := country
        length := (first.length).map (fun v => toString (js.roundParseFloat v) ++ "m")
        displacement := (first.displacement).map (fun v => js.localeString (js.roundParseFloat v) ++ " tons")
        commissioned := (first.commissioned).map (fun v => toString (js.dateYear v))
        decommissioned := decommissioned
        status := status
        conflicts := conflicts
        wikipediaTitle := wikipediaTitle }

/-! ## Random selection (`selectRandomShip`, lines 522-551)

The two `Math.random()` draws are rationals in `[0, 1)`; the count-query
result and the sample query results are inputs.  The second component of the
result is the list of offsets at which sample queries were actually issued,
in order — the run's sample-query trace. -/

/-- JS `Math.floor` on a non-negative number, as a natural. -/
def ratFloorNat (q : ℚ) : Nat := (⌊q⌋).toNat

/-- Embedding of `selectRandomShip`: `count` is the count-query result, `r1`
and `r2` the two potential `Math.random()` draws, `sample o` the row list the
sample query at offset `o` returns.  Returns the selected ship (or `none` for
the terminal Empty outcome) together with the issued sample offsets. -/
def selectRandomShip (js : JsOracles) (count : Nat) (r1 r2 : ℚ)
    (sample : Nat → List WikidataShipResult) : Option SelectedShip × List Nat :=
  if count = 0 then (none, [])
  else
    let offset := ratFloorNat (r1 * count)
    match sample offset with
    | [] =>
      let newOffset := ratFloorNat (r2 * count)
      match sample newOffset with
      | [] => (none, [offset, newOffset])
      | retryResults => (parseShipResult js retryResults, [offset, newOffset])
    | results => (parseShipResult js results, [offset])

/-! ## Trivia extraction (`fetchWikipediaSummary` result, `extractTrivia`) -/

/-- Mirrors the TypeScript `WikipediaSummary`; `description` is optional and
`none` also stands for a JS-falsy empty string (the only read is truthy). -/
structure WikipediaSummary where
  title : String
  extract : String
  description : Option String := none
deriving DecidableEq

/-- Sentence terminators of the `/[^.!?]+[.!?]+/g` split. -/
def isSentenceEnd (c : Char) : Bool := c == '.' || c == '!' || c == '?'

/-- Global matches of `/[^.!?]+[.!?]+/g`: maximal non-terminator run (at
least one character) followed by its maximal terminator run; text with no
following terminator produces no further match. -/
def sentencesAux : List Char → List (List Char)
  | [] => []
  | c :: rest =>
    if isSentenceEnd c then sentencesAux rest
    else
      let body := c :: rest.takeWhile (fun x => !isSentenceEnd x)
      let after := rest.dropWhile (fun x => !isSentenceEnd x)
      let terms := after.takeWhile isSentenceEnd
      let rest2 := after.dropWhile isSentenceEnd
      if terms = [] then [] else (body ++ terms) :: sentencesAux rest2
termination_by l => l.length
decreasing_by
  · simp only [List.length_cons]
    omega
  · simp only [List.length_cons]
    have h1 : (List.dropWhile (fun x => !isSentenceEnd x) rest).length ≤ rest.length :=
      (List.dropWhile_sublist _).length_le
    have h2 : (List.dropWhile isSentenceEnd (List.dropWhile (fun x => !isSentenceEnd x) rest)).length
        ≤ (List.dropWhile (fun x => !isSentenceEnd x) rest).length :=
      (List.dropWhile_sublist _).length_le
    omega

/-- JS `text.match(/[^.!?]+[.!?]+/g) || []` as a list of strings. -/
def sentencesOf (text : String) : List String :=
  (sentencesAux text.data).map (fun l => ⟨l⟩)

/-- The `interestingKeywords` table of `extractTrivia`. -/
def interestingKeywords : List String :=
  ["famous", "notable", "first", "last", "only", "largest", "fastest",
   "sunk", "battle", "war", "attack", "served", "participated",
   "known for", "renamed", "converted", "museum", "memorial",
   "preserved", "film", "movie"]

/-- The keyword test of the `extractTrivia` loop body. -/
def hasKeyword (sentence : String) : Bool :=
  interestingKeywords.any (fun kw => strContains (jsToLower sentence) kw)

/-- The `for ... of sentences.slice(1)` loop with its early return. -/
def triviaLoop : List String → Option String
  | [] => none
  | sentence :: rest =>
    if hasKeyword sentence then some (jsTrim sentence)
    else triviaLoop rest

/-- Embedding of `extractTrivia`.  The leading guard is the source's
`if (!summary?.extract) return null` (empty extract is falsy). -/
def extractTrivia (summary : Option WikipediaSummary) : Option String :=
  match summary with
  | none => none
  | some s =>
    if s.extract = "" then none
    else
      let sentences := sentencesOf s.extract
      match triviaLoop (sentences.drop 1) with
      | some t => some t
      | none =>
        if sentences.length > 1 then some (jsTrim (sentences.getD 1 ("")))
        else
          match s.description with
          | some d => some d
          | none => none

/-- Modelled from the spec sentence of claim C8, for refinement comparison
only (not from the source): split into sentences, skip the first, return the
first keyword sentence from index 1 on; else the sentence at index 1; else
the description; else null. -/
def extractTriviaClaimed (s : WikipediaSummary) : Option String :=
  let sentences := sentencesOf s.extract
  match triviaLoop (sentences.drop 1) with
  | some t => some t
  | none =>
    if sentences.length > 1 then some (jsTrim (sentences.getD 1 ("")))
    else
      match s.description with
      | some d => some d
      | none => none

/-! ## Used-id store (`getUsedShipIds`, lines 178-186) -/

/-- One row of the `used_ships` query result. -/
structure UsedShipRow where
  wikidata_id : String
deriving DecidableEq

/-- Embedding of `getUsedShipIds`: the awaited `sql` call either yields rows
or throws; a throw is caught and mapped to the empty list. -/
def getUsedShipIds (queryResult : Except String (List UsedShipRow)) : List String :=
  match queryResult with
  | .ok result => result.map (fun row => row.wikidata_id)
  | .error _ => []

/-! ## Outer generation loop (`generateForMode`, lines 786-848)

The per-attempt outcome of `selectRandomShip` is abstracted as a function of
the exclusion list passed to it (across iterations these lists are pairwise
distinct, each strictly extending the last, so this loses no generality), and
`fetchClues` as the trivia its result carries.  The trace records the
exclusion set at the start of each Counting phase (`selectArgs`), the number
of `fetchClues` calls, and the loop's outcome. -/

/-- Mirrors the success/failure outcome of `generateForMode` up to the
line-art stage: either a selected ship with its trivia, or the error string
of the returned `GenerationResult`. -/
inductive GenResult where
  | success (ship : SelectedShip) (trivia : Option String)
  | failure (error : String)
deriving DecidableEq

/-- Trace of one `generateForMode` selection loop. -/
structure LoopTrace where
  result : GenResult
  selectArgs : List (List String)
  fetchCalls : Nat
deriving DecidableEq

/-- The `MAX_RETRIES` constant. -/
def MAX_RETRIES : Nat := 10

/-- JS truthiness of `clues.trivia` (a string or null). -/
def triviaTruthy : Option String → Bool
  | none => false
  | some s => !(s == "")

/-- The `for (let attempt = 1; attempt <= MAX_RETRIES; attempt++)` loop of
`generateForMode`, by remaining attempts.  Exhausting the loop with
`requireTrivia` produces the trivia-exhausted error; a failed selection
produces the Empty error; a candidate without required trivia has its id
pushed onto the exclusion list before the next Counting phase. -/
def genLoopAux (select : List String → Option SelectedShip)
    (triviaOf : SelectedShip → Option String) (requireTrivia : Bool) :
    Nat → List String → LoopTrace
  | 0, _ =>
    ⟨.failure
      (if requireTrivia then
        "No ship with trivia found after " ++ toString MAX_RETRIES ++ " attempts"
      else "No eligible ships found"), [], 0⟩
  | fuel + 1, excludeIds =>
    match select excludeIds with
    | none => ⟨.failure ("No eligible ships found"), [excludeIds], 0⟩
    | some ship =>
      let trivia := triviaOf ship
      if !requireTrivia || triviaTruthy trivia then
        ⟨.success ship trivia, [excludeIds], 1⟩
      else
        let rest := genLoopAux select triviaOf requireTrivia fuel (excludeIds ++ [ship.id])
        ⟨rest.result, excludeIds :: rest.selectArgs, rest.fetchCalls + 1⟩

/-- Embedding of the selection phase of `generateForMode`: the loop starts
from the used-id list (`const excludeIds = [...usedIds]`) with the full
attempt budget. -/
def generateForMode (select : List String → Option SelectedShip)
    (triviaOf : SelectedShip → Option String) (requireTrivia : Bool)
    (usedIds : List String) : LoopTrace :=
  genLoopAux select triviaOf requireTrivia MAX_RETRIES usedIds

/-! ## Concrete inputs used by witnesses and the C2 scenario -/

/-- Concrete, arbitrary JS-runtime oracles for witnesses. -/
def sampleOracles : JsOracles :=
  { dateYear := fun _ => 1999
    roundParseFloat := fun _ => 100
    decodeURIComp := id
    encodeURIComp := id
    localeString := fun n => toString n }

/-- Candidate number `n` of the C2 scenario. -/
def scenarioShip (n : Nat) : SelectedShip :=
  { id := "Q" ++ toString n
    name := "Ship " ++ toString n
    imageUrl := ""
    className := none
    country := none
    length := none
    displacement := none
    commissioned := none
    decommissioned := none
    status := none
    conflicts := []
    wikipediaTitle := none }

/-- Scenario selector: the n-th Counting phase (n = excluded-so-far + 1)
returns candidate n. -/
def scenarioSelect (excludeIds : List String) : Option SelectedShip :=
  some (scenarioShip (excludeIds.length + 1))

/-- Scenario fact fetch: only the fourth candidate has a trivia sentence. -/
def scenarioTrivia (ship : SelectedShip) : Option String :=
  if ship.id = "Q4" then some ("She sank a famous battleship.") else none

/-- Concrete result row with an explicit status label. -/
def museumRow : WikidataShipResult :=
  { ship := "http://www.wikidata.org/entity/Q100"
    shipLabel := "USS Example"
    statusLabel := some ("museum ship") }

/-- Expected aggregation of `museumRow`. -/
def museumParsed : SelectedShip :=
  { id := "Q100"
    name := "USS Example"
    imageUrl := ""
    className := none
    country := none
    length := none
    displacement := none
    commissioned := none
    decommissioned := none
    status := some ("museum ship")
    conflicts := []
    wikipediaTitle := none }

/-- Concrete duplicate-row result sets (same candidate, two conflict rows). -/
def conflictRows1 : List WikidataShipResult :=
  [{ ship := "http://www.wikidata.org/entity/Q200", shipLabel := "HMS Two",
     conflictLabel := some ("Gulf War") },
   { ship := "http://www.wikidata.org/entity/Q200", shipLabel := "HMS Two",
     conflictLabel := some ("World War II") },
   { ship := "http://www.wikidata.org/entity/Q200", shipLabel := "HMS Two",
     conflictLabel := some ("Gulf War") }]

/-- A permutation of `conflictRows1`. -/
def conflictRows2 : List WikidataShipResult :=
  [{ ship := "http://www.wikidata.org/entity/Q200", shipLabel := "HMS Two",
     conflictLabel := some ("Gulf War") },
   { ship := "http://www.wikidata.org/entity/Q200", shipLabel := "HMS Two",
     conflictLabel := some ("Gulf War") },
   { ship := "http://www.wikidata.org/entity/Q200", shipLabel := "HMS Two",
     conflictLabel := some ("World War II") }]

/-- Expected aggregation of `conflictRows1` (the Gulf War conflict label
triggers the likely-active heuristic). -/
def conflictParsed : SelectedShip :=
  { id := "Q200"
    name := "HMS Two"
    imageUrl := ""
    className := none
    country := none
    length := none
    displacement := none
    commissioned := none
    decommissioned := none
    status := some ("Active or recently active")
    conflicts := ["Gulf War", "World War II"]
    wikipediaTitle := none }

/-- Summary with an empty extract but a present description: the input on
which the code and the claimed extraction rule of C8 disagree. -/
def emptyExtractSummary : WikipediaSummary :=
  { title := "HMS Example", extract := "", description := some ("A cruiser of the Royal Navy") }

/-! ## Substring containment -/

/-- The pattern string occurs contiguously inside the subject string. -/
def ContainsSubstr (s pat : String) : Prop :=
  ∃ a b, s.data = a ++ (pat.data ++ b)

/-! ## Helper lemmas -/

theorem dropWhile_append_of_left {p : Char → Bool} {l₁ : List Char}
    (l₂ : List Char) (h : l₁.dropWhile p ≠ []) :
    (l₁ ++ l₂).dropWhile p = l₁.dropWhile p ++ l₂ := by
  rw [List.dropWhile_append]
  simp only [List.isEmpty_iff]
  rw [if_neg h]

theorem dropWhile_ne_nil_left {p : Char → Bool} {l₁ : List Char}
    (l₂ : List Char) (h : l₁.dropWhile p ≠ []) :
    (l₁ ++ l₂).dropWhile p ≠ [] := by
  rw [dropWhile_append_of_left l₂ h]
  exact fun hc => h (List.append_eq_nil.mp hc).1

theorem dropWhile_ne_nil_right {p : Char → Bool} (l₁ : List Char) {l₂ : List Char}
    (h : l₂.dropWhile p ≠ []) :
    (l₁ ++ l₂).dropWhile p ≠ [] := by
  rw [List.dropWhile_append]
  split
  · exact h
  · intro hc
    next hne =>
      simp only [List.isEmpty_iff] at hne
      exact hne (List.append_eq_nil.mp hc).1

/-- Trimming a string whose head part keeps a non-whitespace character and
whose tail part keeps one leaves the middle part intact. -/
theorem jsTrim_middle (A M B : String)
    (hA : A.data.dropWhile Char.isWhitespace ≠ [])
    (hB : B.data.reverse.dropWhile Char.isWhitespace ≠ []) :
    (jsTrim (A ++ (M ++ B))).data
      = A.data.dropWhile Char.isWhitespace
        ++ (M.data ++ (B.data.reverse.dropWhile Char.isWhitespace).reverse) := by
  show jsTrimList (A ++ (M ++ B)).data = _
  rw [String.data_append, String.data_append]
  unfold jsTrimList
  rw [dropWhile_append_of_left _ hA]
  rw [List.reverse_append, List.reverse_append]
  rw [List.append_assoc, dropWhile_append_of_left _ hB]
  simp [List.reverse_append, List.append_assoc]

theorem containsSubstr_of_middle {t pat : String} (s₁ s₂ : String)
    (h : ContainsSubstr t pat) : ContainsSubstr (s₁ ++ t ++ s₂) pat := by
  obtain ⟨a, b, hab⟩ := h
  exact ⟨s₁.data ++ a, b ++ s₂.data, by
    rw [String.data_append, String.data_append, hab]
    simp [List.append_assoc]⟩

theorem containsSubstr_self (s : String) : ContainsSubstr s s :=
  ⟨[], [], by simp⟩

theorem containsSubstr_trans {s t pat : String}
    (h₁ : ContainsSubstr s t) (h₂ : ContainsSubstr t pat) : ContainsSubstr s pat := by
  obtain ⟨a, b, hab⟩ := h₁
  obtain ⟨a', b', hab'⟩ := h₂
  exact ⟨a ++ a', b' ++ b, by rw [hab, hab']; simp [List.append_assoc]⟩

theorem jsJoin_contains {x : String} {l : List String} (sep : String) (h : x ∈ l) :
    ContainsSubstr (jsJoin sep l) x := by
  induction l with
  | nil => cases h
  | cons y rest ih =>
    cases rest with
    | nil =>
      rcases List.mem_singleton.mp h with rfl
      exact containsSubstr_self _
    | cons z rest' =>
      rcases List.mem_cons.mp h with rfl | hmem
      · exact ⟨[], (sep ++ jsJoin sep (z :: rest')).data, by
          show (x ++ sep ++ jsJoin sep (z :: rest')).data = _
          rw [String.data_append, String.data_append, String.data_append]
          simp [List.append_assoc]⟩
      · obtain ⟨a, b, hab⟩ := ih hmem
        exact ⟨(y ++ sep).data ++ a, b, by
          show (y ++ sep ++ jsJoin sep (z :: rest')).data = _
          rw [String.data_append, hab]
          simp [List.append_assoc]⟩

theorem genLoopAux_selectArgs_length (select : List String → Option SelectedShip)
    (triviaOf : SelectedShip → Option String) (req : Bool) :
    ∀ fuel ex, (genLoopAux select triviaOf req fuel ex).selectArgs.length ≤ fuel := by
  intro fuel
  induction fuel with
  | zero => intro ex; simp [genLoopAux]
  | succ n ih =>
    intro ex
    simp only [genLoopAux]
    cases select ex with
    | none => simp
    | some ship =>
      dsimp only
      split
      · simp
      · simpa using ih (ex ++ [ship.id])

theorem genLoopAux_selectArgs_head (select : List String → Option SelectedShip)
    (triviaOf : SelectedShip → Option String) (req : Bool) (fuel : Nat) (ex : List String) :
    (genLoopAux select triviaOf req (fuel + 1) ex).selectArgs.head? = some ex := by
  simp only [genLoopAux]
  cases select ex with
  | none => rfl
  | some ship =>
    dsimp only
    split
    · rfl
    · rfl

theorem genLoopAux_chain (select : List String → Option SelectedShip)
    (triviaOf : SelectedShip → Option String) (req : Bool) :
    ∀ fuel ex,
      List.Chain'
        (fun x y => ∃ ship, select x = some ship
          ∧ triviaTruthy (triviaOf ship) = false ∧ y = x ++ [ship.id])
        (genLoopAux select triviaOf req fuel ex).selectArgs := by
  intro fuel
  induction fuel with
  | zero => intro ex; simp [genLoopAux]
  | succ n ih =>
    intro ex
    simp only [genLoopAux]
    cases hsel : select ex with
    | none => simp
    | some ship =>
      dsimp only
      split
      · simp
      · next hcond =>
        rw [List.chain'_cons']
        refine ⟨?_, ih (ex ++ [ship.id])⟩
        intro y hy
        have htr : triviaTruthy (triviaOf ship) = false := by
          rcases Bool.or_eq_false_iff.mp (Bool.of_not_eq_true hcond) with ⟨-, h2⟩
          exact h2
        cases n with
        | zero => simp [genLoopAux] at hy
        | succ m =>
          rw [genLoopAux_selectArgs_head] at hy
          cases hy
          exact ⟨ship, hsel, htr, rfl⟩

theorem genLoopAux_exhaust (select : List String → Option SelectedShip)
    (triviaOf : SelectedShip → Option String)
    (hsel : ∀ ex, ∃ s, select ex = some s ∧ triviaTruthy (triviaOf s) = false) :
    ∀ fuel ex, (genLoopAux select triviaOf true fuel ex).result
      = .failure ("No ship with trivia found after " ++ toString MAX_RETRIES ++ " attempts") := by
  intro fuel
  induction fuel with
  | zero => intro ex; simp [genLoopAux]
  | succ n ih =>
    intro ex
    obtain ⟨s, hs, ht⟩ := hsel ex
    simp only [genLoopAux, hs, ht]
    simpa using ih (ex ++ [s.id])

/-! ## Claim theorems -/

/-- C3: a composited pixel whose foreground alpha exceeds 128 and whose edge
luminance is below 180 is ink — black with opacity exactly
`min 255 ((180 - edge) * 2)`, which is strictly positive; every other pixel is
the zero-filled fully transparent pixel; a pixel failing the 128 alpha gate is
never ink regardless of its edge value; and the composited frame applies this
rule to each pixel index. -/
theorem composite_ink_rule :
    (∀ a e, 128 < a → e < 180 →
      compositePixel a e = (0, 0, 0, min 255 ((180 - e) * 2))
        ∧ 0 < pixelAlpha (compositePixel a e))
    ∧ (∀ a e, ¬(128 < a ∧ e < 180) → compositePixel a e = (0, 0, 0, 0))
    ∧ (∀ a e, a ≤ 128 → pixelAlpha (compositePixel a e) = 0)
    ∧ (∀ A E i, compositeImage A E i = compositePixel (A i) (E i)) := by
  refine ⟨?_, ?_, ?_, fun A E i => rfl⟩
  · intro a e ha he
    refine ⟨by simp [compositePixel, ha, he], ?_⟩
    simp only [compositePixel, pixelAlpha, if_pos (And.intro ha he)]
    omega
  · intro a e h
    simp [compositePixel, h]
  · intro a e ha
    have h : ¬(128 < a ∧ e < 180) := by omega
    simp [compositePixel, pixelAlpha, h]

theorem composite_ink_rule_witness :
    (128 < 200 ∧ 100 < 180 ∧ (64 : Nat) ≤ 128)
    ∧ compositePixel 200 100 = (0, 0, 0, min 255 ((180 - 100) * 2))
    ∧ pixelAlpha (compositePixel 64 0) = 0 :=
  ⟨by decide, (composite_ink_rule.1 200 100 (by decide) (by decide)).1,
   composite_ink_rule.2.2.1 64 0 (by decide)⟩

/-- C9: for a fixed alpha passing the gate, the computed ink opacity is
monotone non-decreasing as edge luminance decreases (non-ink luminances at or
above 180 having opacity 0). -/
theorem ink_opacity_monotone :
    ∀ a e e', 128 < a → e' ≤ e →
      pixelAlpha (compositePixel a e) ≤ pixelAlpha (compositePixel a e') := by
  intro a e e' ha hle
  by_cases he : e < 180
  · have he' : e' < 180 := lt_of_le_of_lt hle he
    simp only [compositePixel, pixelAlpha, if_pos (And.intro ha he), if_pos (And.intro ha he')]
    omega
  · have h : ¬(128 < a ∧ e < 180) := fun hc => he hc.2
    simp only [compositePixel, pixelAlpha, if_neg h]
    exact Nat.zero_le _

theorem ink_opacity_monotone_witness :
    (128 < 200 ∧ 50 ≤ 100)
    ∧ pixelAlpha (compositePixel 200 100) ≤ pixelAlpha (compositePixel 200 50) :=
  ⟨by decide, ink_opacity_monotone 200 100 50 (by decide) (by decide)⟩

/-- C6 counterexample: a segmentation call that fails by throwing (a rejected
fetch promise, e.g. a network timeout) does not pass the image through — the
error propagates out of `removeBackgroundWithAPI`, contradicting the claim
that the pipeline degrades and completes on any failure. -/
theorem removeBackground_thrown_counterexample :
    removeBackgroundWithAPI (some ("key")) (.thrown ("fetch timeout")) [7, 7]
      = .error ("fetch timeout")
    ∧ removeBackgroundWithAPI (some ("key")) (.thrown ("fetch timeout")) [7, 7]
      ≠ .ok [7, 7] :=
  ⟨rfl, fun h => nomatch h⟩

/-- C6 amended: when no API key is configured, or the segmentation call
completes with any non-2xx response (quota exceeded included), the image
passes through unchanged with no error; pixels of the unmasked pass-through
(alpha 255) all pass the alpha gate, becoming ink exactly when their edge
luminance is below 180; a rejected fetch promise, by contrast, propagates as
an error. -/
theorem removeBackground_soft_failure :
    (∀ outcome buf, removeBackgroundWithAPI none outcome buf = .ok buf)
    ∧ (∀ key status body buf,
        removeBackgroundWithAPI (some key) (.httpError status body) buf = .ok buf)
    ∧ (∀ key msg buf, removeBackgroundWithAPI (some key) (.thrown msg) buf = .error msg)
    ∧ (∀ e, e < 180 → 0 < pixelAlpha (compositePixel 255 e))
    ∧ (∀ e, 180 ≤ e → compositePixel 255 e = (0, 0, 0, 0)) := by
  refine ⟨fun _ _ => rfl, fun _ _ _ _ => rfl, fun _ _ _ => rfl, ?_, ?_⟩
  · intro e he
    have h : (128 : Nat) < 255 := by omega
    simp only [compositePixel, pixelAlpha, if_pos (And.intro h he)]
    omega
  · intro e he
    have h : ¬((128 : Nat) < 255 ∧ e < 180) := by omega
    simp only [compositePixel, if_neg h]

theorem removeBackground_soft_failure_witness :
    ((100 : Nat) < 180 ∧ (180 : Nat) ≤ 200)
    ∧ removeBackgroundWithAPI (some ("key")) (.httpError 402 ("quota exceeded")) [1, 2]
        = .ok [1, 2]
    ∧ 0 < pixelAlpha (compositePixel 255 100)
    ∧ compositePixel 255 200 = (0, 0, 0, 0) :=
  ⟨by decide, removeBackground_soft_failure.2.1 ("key") 402 ("quota exceeded") [1, 2],
   removeBackground_soft_failure.2.2.2.1 100 (by decide),
   removeBackground_soft_failure.2.2.2.2 200 (by decide)⟩

/-- C10: when the used-id query throws, `getUsedShipIds` returns the empty
list instead of propagating the error, so `generateForMode` starts its first
Counting phase with an empty exclusion set, whose emitted filter constrains
nothing — every previously used candidate is eligible again. -/
theorem usedIds_error_degrades :
    (∀ e, getUsedShipIds (.error e) = [])
    ∧ (∀ e select triviaOf req,
        (generateForMode select triviaOf req (getUsedShipIds (.error e))).selectArgs.head?
          = some [])
    ∧ (∀ uri, excludeFilterHolds [] uri) := by
  refine ⟨fun _ => rfl, ?_, ?_⟩
  · intro e select triviaOf req
    exact genLoopAux_selectArgs_head select triviaOf req 9 []
  · intro uri h
    exact absurd rfl h

/-- C2: the FactCheck loop makes at most `MAX_RETRIES` = 10 selection
attempts; between consecutive Counting phases exactly the id of the just
rejected (fact-lacking) candidate is appended to the exclusion set; if every
attempt yields a candidate without a fact, the loop fails with the
trivia-exhausted error, which differs from the Empty error; and in the
scenario where the first three candidates lack a fact and the fourth has one,
exactly four fact-fetch calls occur, the first three ids are added to the
exclusion set in order, and the outcome references the fourth candidate. -/
theorem factcheck_loop_bound :
    (∀ select triviaOf req used,
      (generateForMode select triviaOf req used).selectArgs.length ≤ MAX_RETRIES)
    ∧ (∀ select triviaOf req used,
        List.Chain'
          (fun x y => ∃ ship, select x = some ship
            ∧ triviaTruthy (triviaOf ship) = false ∧ y = x ++ [ship.id])
          (generateForMode select triviaOf req used).selectArgs)
    ∧ (∀ select triviaOf used,
        (∀ ex, ∃ s, select ex = some s ∧ triviaTruthy (triviaOf s) = false) →
        (generateForMode select triviaOf true used).result
          = .failure ("No ship with trivia found after 10 attempts"))
    ∧ ("No ship with trivia found after 10 attempts" : String) ≠ "No eligible ships found"
    ∧ generateForMode scenarioSelect scenarioTrivia true []
        = ⟨.success (scenarioShip 4) (some ("She sank a famous battleship.")),
           [[], ["Q1"], ["Q1", "Q2"], ["Q1", "Q2", "Q3"]], 4⟩ := by
  refine ⟨?_, ?_, ?_, by decide, by decide⟩
  · intro select triviaOf req used
    exact genLoopAux_selectArgs_length select triviaOf req MAX_RETRIES used
  · intro select triviaOf req used
    exact genLoopAux_chain select triviaOf req MAX_RETRIES used
  · intro select triviaOf used hsel
    exact genLoopAux_exhaust select triviaOf hsel MAX_RETRIES used

theorem ratFloorNat_lt_of_lt_one (r : ℚ) (count : Nat)
    (h0 : 0 ≤ r) (h1 : r < 1) (hc : 0 < count) :
    ratFloorNat (r * count) < count := by
  have hcq : (0 : ℚ) < (count : ℚ) := by exact_mod_cast hc
  have hlt : r * (count : ℚ) < (count : ℚ) := by
    calc r * (count : ℚ) < 1 * count := mul_lt_mul_of_pos_right h1 hcq
    _ = count := one_mul _
  have hfl : ⌊r * (count : ℚ)⌋ < (count : ℤ) := by
    rw [Int.floor_lt]
    exact_mod_cast hlt
  have hnn : (0 : ℤ) ≤ ⌊r * (count : ℚ)⌋ := Int.floor_nonneg.mpr (mul_nonneg h0 hcq.le)
  unfold ratFloorNat
  omega

/-- C1: a zero count terminates the run as Empty with no sample query issued;
for a positive count, every issued sample offset is drawn as
`floor(random * count)` and lies in `[0, count)`; at most two sample queries
are ever issued; a non-empty first sample ends the run after exactly one
sample query; and two zero-row samples terminate the run as Empty after
exactly the first query and its single retry. -/
theorem selectRandomShip_state_machine :
    (∀ js r1 r2 sample, selectRandomShip js 0 r1 r2 sample = (none, []))
    ∧ (∀ js count r1 r2 sample, 0 < count → 0 ≤ r1 → r1 < 1 → 0 ≤ r2 → r2 < 1 →
        ∀ o ∈ (selectRandomShip js count r1 r2 sample).2, o < count)
    ∧ (∀ js count r1 r2 sample, (selectRandomShip js count r1 r2 sample).2.length ≤ 2)
    ∧ (∀ js count r1 r2 sample, 0 < count → sample (ratFloorNat (r1 * count)) ≠ [] →
        (selectRandomShip js count r1 r2 sample).2 = [ratFloorNat (r1 * count)])
    ∧ (∀ js count r1 r2 sample, 0 < count →
        sample (ratFloorNat (r1 * count)) = [] → sample (ratFloorNat (r2 * count)) = [] →
        selectRandomShip js count r1 r2 sample
          = (none, [ratFloorNat (r1 * count), ratFloorNat (r2 * count)])) := by
  refine ⟨fun js r1 r2 sample => rfl, ?_, ?_, ?_, ?_⟩
  · intro js count r1 r2 sample hc h01 h11 h02 h12 o ho
    have hne : ¬(count = 0) := by omega
    simp only [selectRandomShip, if_neg hne] at ho
    cases hs1 : sample (ratFloorNat (r1 * count)) with
    | nil =>
      rw [hs1] at ho
      cases hs2 : sample (ratFloorNat (r2 * count)) with
      | nil =>
        rw [hs2] at ho
        simp only at ho
        rcases List.mem_cons.mp ho with rfl | ho'
        · exact ratFloorNat_lt_of_lt_one r1 count h01 h11 hc
        · rcases List.mem_singleton.mp ho' with rfl
          exact ratFloorNat_lt_of_lt_one r2 count h02 h12 hc
      | cons rrow rrest =>
        rw [hs2] at ho
        simp only at ho
        rcases List.mem_cons.mp ho with rfl | ho'
        · exact ratFloorNat_lt_of_lt_one r1 count h01 h11 hc
        · rcases List.mem_singleton.mp ho' with rfl
          exact ratFloorNat_lt_of_lt_one r2 count h02 h12 hc
    | cons row rest =>
      rw [hs1] at ho
      simp only at ho
      rcases List.mem_singleton.mp ho with rfl
      exact ratFloorNat_lt_of_lt_one r1 count h01 h11 hc
  · intro js count r1 r2 sample
    by_cases hne : count = 0
    · subst hne; simp [selectRandomShip]
    · simp only [selectRandomShip, if_neg hne]
      cases sample (ratFloorNat (r1 * count)) with
      | nil =>
        cases sample (ratFloorNat (r2 * count)) with
        | nil => simp
        | cons rrow rrest => simp
      | cons row rest => simp
  · intro js count r1 r2 sample hc hne
    have hc0 : ¬(count = 0) := by omega
    simp only [selectRandomShip, if_neg hc0]
  · intro js count r1 r2 sample hc hs1 hs2
    have hc0 : ¬(count = 0) := by omega
    simp only [selectRandomShip, if_neg hc0, hs1, hs2]

theorem selectRandomShip_state_machine_witness :
    ((0 : Nat) < 5 ∧ (0 : ℚ) ≤ 1/2 ∧ (1/2 : ℚ) < 1 ∧ (0 : ℚ) ≤ 3/4 ∧ (3/4 : ℚ) < 1)
    ∧ (∀ o ∈ (selectRandomShip sampleOracles 5 (1/2) (3/4) (fun _ => [])).2, o < 5)
    ∧ selectRandomShip sampleOracles 5 (1/2) (3/4) (fun _ => [])
        = (none, [ratFloorNat ((1/2 : ℚ) * (5 : Nat)), ratFloorNat ((3/4 : ℚ) * (5 : Nat))]) :=
  ⟨by norm_num,
   selectRandomShip_state_machine.2.1 sampleOracles 5 (1/2) (3/4) (fun _ => [])
     (by norm_num) (by norm_num) (by norm_num) (by norm_num) (by norm_num),
   selectRandomShip_state_machine.2.2.2.2 sampleOracles 5 (1/2) (3/4) (fun _ => [])
     (by norm_num) rfl rfl⟩

theorem factcheck_loop_bound_witness :
    (∀ ex, ∃ s, (fun (_ : List String) => some (scenarioShip 1)) ex = some s
      ∧ triviaTruthy ((fun (_ : SelectedShip) => (none : Option String)) s) = false)
    ∧ (generateForMode (fun _ => some (scenarioShip 1)) (fun _ => none) true []).result
        = .failure ("No ship with trivia found after 10 attempts") :=
  ⟨fun _ => ⟨scenarioShip 1, rfl, rfl⟩,
   factcheck_loop_bound.2.2.1 _ _ [] (fun _ => ⟨scenarioShip 1, rfl, rfl⟩)⟩

theorem insertSet_toFinset (l : List String) (x : String) :
    (insertSet l x).toFinset = insert x l.toFinset := by
  unfold insertSet
  split
  · next h => rw [Finset.insert_eq_self.mpr (List.mem_toFinset.mpr h)]
  · simp only [List.toFinset_append, List.toFinset_cons, List.toFinset_nil]
    rw [Finset.union_comm, Finset.insert_union, Finset.empty_union]

theorem insertSet_nodup {l : List String} (x : String) (h : l.Nodup) :
    (insertSet l x).Nodup := by
  unfold insertSet
  split
  · exact h
  · next hx =>
    rw [List.nodup_append]
    exact ⟨h, List.nodup_singleton x, by
      intro a ha hax
      rcases List.mem_singleton.mp hax with rfl
      exact hx ha⟩

theorem collectConflicts_foldl (rows : List WikidataShipResult) :
    ∀ acc : List String,
      (rows.foldl
        (fun acc row => match row.conflictLabel with
          | some c => insertSet acc c
          | none => acc) acc).toFinset
        = acc.toFinset ∪ (rows.filterMap (fun r => r.conflictLabel)).toFinset := by
  induction rows with
  | nil => intro acc; simp
  | cons r rest ih =>
    intro acc
    simp only [List.foldl_cons, List.filterMap_cons]
    cases hr : r.conflictLabel with
    | none => simp [ih]
    | some c =>
      rw [ih, insertSet_toFinset]
      ext a
      simp only [Finset.mem_union, Finset.mem_insert, List.mem_toFinset, List.toFinset_cons]
      tauto

theorem collectConflicts_toFinset (rows : List WikidataShipResult) :
    (collectConflicts rows).toFinset
      = (rows.filterMap (fun r => r.conflictLabel)).toFinset := by
  have h := collectConflicts_foldl rows []
  simpa [collectConflicts] using h

theorem collectConflicts_nodup (rows : List WikidataShipResult) :
    (collectConflicts rows).Nodup := by
  suffices h : ∀ acc : List String, acc.Nodup →
      (rows.foldl
        (fun acc row => match row.conflictLabel with
          | some c => insertSet acc c
          | none => acc) acc).Nodup by
    exact h [] List.nodup_nil
  induction rows with
  | nil => intro acc hacc; simpa using hacc
  | cons r rest ih =>
    intro acc hacc
    simp only [List.foldl_cons]
    cases hr : r.conflictLabel with
    | none => exact ih acc hacc
    | some c => exact ih (insertSet acc c) (insertSet_nodup c hacc)

theorem parseShipResult_conflicts (js : JsOracles) (first : WikidataShipResult)
    (rest : List WikidataShipResult) (s : SelectedShip)
    (h : parseShipResult js (first :: rest) = some s) :
    s.conflicts = collectConflicts (first :: rest) := by
  simp only [parseShipResult, Option.some.injEq] at h
  rw [← h]

/-- C5: aggregating the rows of one candidate yields a conflict list that is
duplicate-free and equal, as a set, to the union of the rows' non-null
conflict labels; and that set is unchanged under any permutation of the row
arrival order. -/
theorem aggregation_union_perm :
    (∀ js rows s, parseShipResult js rows = some s →
      s.conflicts.toFinset = (rows.filterMap (fun r => r.conflictLabel)).toFinset
      ∧ s.conflicts.Nodup)
    ∧ (∀ js rows₁ rows₂, rows₁.Perm rows₂ →
        Option.map (fun s => s.conflicts.toFinset) (parseShipResult js rows₁)
          = Option.map (fun s => s.conflicts.toFinset) (parseShipResult js rows₂)) := by
  constructor
  · intro js rows s h
    cases rows with
    | nil => exact absurd h (by simp [parseShipResult])
    | cons first rest =>
      have hc := parseShipResult_conflicts js first rest s h
      rw [hc, collectConflicts_toFinset]
      exact ⟨rfl, hc ▸ collectConflicts_nodup (first :: rest)⟩
  · intro js rows₁ rows₂ hperm
    have hsets : (rows₁.filterMap (fun r => r.conflictLabel)).toFinset
        = (rows₂.filterMap (fun r => r.conflictLabel)).toFinset :=
      List.toFinset_eq_of_perm _ _ (hperm.filterMap _)
    cases rows₁ with
    | nil =>
      have h₂ : rows₂ = [] := hperm.nil_eq.symm
      subst h₂
      rfl
    | cons f₁ r₁ =>
      cases rows₂ with
      | nil => exact absurd hperm.eq_nil (by simp)
      | cons f₂ r₂ =>
        obtain ⟨s₁, hs₁⟩ : ∃ s, parseShipResult js (f₁ :: r₁) = some s :=
          ⟨_, rfl⟩
        obtain ⟨s₂, hs₂⟩ : ∃ s, parseShipResult js (f₂ :: r₂) = some s :=
          ⟨_, rfl⟩
        have e₁ := parseShipResult_conflicts js f₁ r₁ s₁ hs₁
        have e₂ := parseShipResult_conflicts js f₂ r₂ s₂ hs₂
        rw [hs₁, hs₂]
        simp only [Option.map_some']
        rw [e₁, e₂, collectConflicts_toFinset, collectConflicts_toFinset]
        exact congrArg some hsets

theorem aggregation_union_perm_witness :
    conflictRows1.Perm conflictRows2
    ∧ Option.map (fun s => s.conflicts.toFinset) (parseShipResult sampleOracles conflictRows1)
        = Option.map (fun s => s.conflicts.toFinset) (parseShipResult sampleOracles conflictRows2)
    ∧ parseShipResult sampleOracles conflictRows1 = some conflictParsed
    ∧ conflictParsed.conflicts.Nodup :=
  ⟨by decide, aggregation_union_perm.2 sampleOracles _ _ (by decide), by decide,
   (aggregation_union_perm.1 sampleOracles conflictRows1 conflictParsed (by decide)).2⟩

/-- C7: the derived status follows the priority order: an explicit status
label wins; else a present decommission date yields the decommissioned-year
status; else a conflict label matching the curated recent-token set yields
the likely-active label; else the status is unknown. -/
theorem status_priority :
    ∀ js first rest s, parseShipResult js (first :: rest) = some s →
      (∀ lbl, first.statusLabel = some lbl → s.status = some lbl)
      ∧ (first.statusLabel = none → ∀ d, first.decommissioned = some d →
          s.status = some ("Decommissioned " ++ toString (js.dateYear d)))
      ∧ (first.statusLabel = none → first.decommissioned = none →
          (∃ c ∈ s.conflicts, isRecentConflict c = true) →
          s.status = some ("Active or recently active"))
      ∧ (first.statusLabel = none → first.decommissioned = none →
          (∀ c ∈ s.conflicts, isRecentConflict c = false) →
          s.status = none) := by
  intro js first rest s h
  have hc := parseShipResult_conflicts js first rest s h
  simp only [parseShipResult, Option.some.injEq] at h
  refine ⟨?_, ?_, ?_, ?_⟩
  · intro lbl hl
    rw [← h]
    simp [hl]
  · intro h0 d hd
    rw [← h]
    simp [h0, hd]
  · intro h0 h1 hex
    rw [← h]
    simp only [h0, h1, Option.map_none]
    rw [hc] at hex
    obtain ⟨c, hcmem, hcrec⟩ := hex
    have hmem : c ∈ (collectConflicts (first :: rest)).filter (fun c => isRecentConflict c) :=
      List.mem_filter.mpr ⟨hcmem, hcrec⟩
    have hpos : 0 < ((collectConflicts (first :: rest)).filter (fun c => isRecentConflict c)).length :=
      List.length_pos.mpr (List.ne_nil_of_mem hmem)
    simp [hpos]
  · intro h0 h1 hall
    rw [← h]
    simp only [h0, h1, Option.map_none]
    rw [hc] at hall
    have hnil : (collectConflicts (first :: rest)).filter (fun c => isRecentConflict c) = [] :=
      List.filter_eq_nil_iff.mpr (fun c hcmem => by simp [hall c hcmem])
    simp [hnil]

theorem status_priority_witness :
    parseShipResult sampleOracles [museumRow] = some museumParsed
    ∧ museumRow.statusLabel = some ("museum ship")
    ∧ museumParsed.status = some ("museum ship") :=
  ⟨by decide, by decide,
   (status_priority sampleOracles museumRow [] museumParsed (by decide)).1
     ("museum ship") (by decide)⟩

theorem triviaLoop_eq_find (l : List String) :
    triviaLoop l = (l.find? hasKeyword).map jsTrim := by
  induction l with
  | nil => rfl
  | cons s rest ih =>
    by_cases h : hasKeyword s
    · simp [triviaLoop, h, List.find?_cons_of_pos]
    · have hb : hasKeyword s = false := by simpa using h
      simp [triviaLoop, hb, List.find?_cons_of_neg, ih]

/-- C8 counterexample: on a summary whose extract is empty but whose
description is present, `extractTrivia` returns null (the source guard
`if (!summary?.extract) return null`), while the claimed rule — no sentence
at index 1, so return the description — yields the description. -/
theorem extractTrivia_counterexample :
    extractTrivia (some emptyExtractSummary) = none
    ∧ extractTriviaClaimed emptyExtractSummary = some ("A cruiser of the Royal Navy")
    ∧ extractTrivia (some emptyExtractSummary) ≠ extractTriviaClaimed emptyExtractSummary := by
  have h1 : extractTrivia (some emptyExtractSummary) = none := rfl
  have h2 : extractTriviaClaimed emptyExtractSummary = some ("A cruiser of the Royal Navy") := by
    simp [extractTriviaClaimed, sentencesOf, emptyExtractSummary, sentencesAux, triviaLoop]
  exact ⟨h1, h2, by rw [h1, h2]; exact fun h => nomatch h⟩

/-- C8 amended: for a missing summary or an empty extract the result is null;
otherwise the extract is split into sentences, the first is skipped, and the
result is the first sentence from index 1 on containing a keyword (trimmed);
else the sentence at index 1 (trimmed) when it exists; else the description
when present and non-empty; else null. -/
theorem extractTrivia_characterization :
    extractTrivia none = none
    ∧ ∀ s : WikipediaSummary,
        extractTrivia (some s) =
          if s.extract = "" then none
          else
            match ((sentencesOf s.extract).drop 1).find? hasKeyword with
            | some t => some (jsTrim t)
            | none =>
              if 1 < (sentencesOf s.extract).length then
                some (jsTrim ((sentencesOf s.extract).getD 1 ("")))
              else s.description := by
  refine ⟨rfl, ?_⟩
  intro s
  by_cases hx : s.extract = ""
  · simp [extractTrivia, hx]
  · simp only [extractTrivia, if_neg hx, triviaLoop_eq_find]
    cases hf : ((sentencesOf s.extract).drop 1).find? hasKeyword with
    | some t => rfl
    | none =>
      simp only [Option.map_none']
      by_cases hl : (sentencesOf s.extract).length > 1
      · rw [if_pos hl, if_pos hl]
      · rw [if_neg hl, if_neg hl]
        cases s.description with
        | none => rfl
        | some d => rfl

theorem countQueryHead_keeps (mode : ModeConfig) :
    (countQueryHead mode).data.dropWhile Char.isWhitespace ≠ [] := by
  have h : ("\nSELECT (COUNT(DISTINCT ?ship) AS ?count)\nWHERE \x7b\n  VALUES ?type \x7b " : String).data.dropWhile Char.isWhitespace ≠ [] := by decide
  simp only [countQueryHead, String.data_append, List.append_assoc]
  exact dropWhile_ne_nil_left _ h

theorem countQueryTail_keeps :
    countQueryTail.data.reverse.dropWhile Char.isWhitespace ≠ [] := by decide

theorem shipQueryHead_keeps (mode : ModeConfig) :
    (shipQueryHead mode).data.dropWhile Char.isWhitespace ≠ [] := by
  have h : ("\nSELECT DISTINCT\n  ?ship ?shipLabel\n  ?image\n  ?class ?classLabel\n  ?country ?countryLabel\n  ?operator ?operatorLabel\n  ?operatorCountry ?operatorCountryLabel\n  ?length ?displacement\n  ?commissioned\n  ?conflict ?conflictLabel\n  ?decommissioned\n  ?status ?statusLabel\n  ?article\nWHERE \x7b\n  VALUES ?type \x7b " : String).data.dropWhile Char.isWhitespace ≠ [] := by decide
  simp only [shipQueryHead, String.data_append, List.append_assoc]
  exact dropWhile_ne_nil_left _ h

theorem shipQueryTail_keeps (offset : Nat) :
    (shipQueryTail offset).data.reverse.dropWhile Char.isWhitespace ≠ [] := by
  have h : ("\n\n  OPTIONAL \x7b ?ship wdt:P17 ?country . \x7d\n  OPTIONAL \x7b\n    ?ship wdt:P137 ?operator .\n    OPTIONAL \x7b ?operator wdt:P17 ?operatorCountry . \x7d\n  \x7d\n  OPTIONAL \x7b ?ship wdt:P607 ?conflict . \x7d\n  OPTIONAL \x7b ?ship wdt:P730 ?decommissioned . \x7d\n  OPTIONAL \x7b ?ship wdt:P1308 ?status . \x7d\n\n  OPTIONAL \x7b\n    ?article schema:about ?ship ;\n             schema:isPartOf <https://en.wikipedia.org/> .\n  \x7d\n\n  SERVICE wikibase:label \x7b bd:serviceParam wikibase:language \"en\" . \x7d\n\x7d\nORDER BY ?shipLabel\nLIMIT 1\nOFFSET " : String).data.reverse.dropWhile Char.isWhitespace ≠ [] := by decide
  simp only [shipQueryTail, String.data_append, List.reverse_append, List.append_assoc]
  exact dropWhile_ne_nil_right _ (dropWhile_ne_nil_right _ h)

theorem buildCountQuery_contains_filter (ids : List String) (mode : ModeConfig) :
    ContainsSubstr (buildCountQuery ids mode) (buildExcludeFilter ids) :=
  ⟨_, _, jsTrim_middle (countQueryHead mode) (buildExcludeFilter ids) countQueryTail
      (countQueryHead_keeps mode) countQueryTail_keeps⟩

theorem buildShipQuery_contains_filter (ids : List String) (offset : Nat) (mode : ModeConfig) :
    ContainsSubstr (buildShipQuery ids offset mode) (buildExcludeFilter ids) :=
  ⟨_, _, jsTrim_middle (shipQueryHead mode) (buildExcludeFilter ids) (shipQueryTail offset)
      (shipQueryHead_keeps mode) (shipQueryTail_keeps offset)⟩

theorem buildExcludeFilter_contains_id {id : String} {ids : List String} (h : id ∈ ids) :
    ContainsSubstr (buildExcludeFilter ids) ("wd:" ++ id) := by
  have hmem : ("wd:" ++ id) ∈ ids.map (fun i => "wd:" ++ i) :=
    List.mem_map_of_mem _ h
  have hj := jsJoin_contains (", ") hmem
  have hlen : ids.length > 0 := List.length_pos.mpr (List.ne_nil_of_mem h)
  unfold buildExcludeFilter
  rw [if_pos hlen]
  exact containsSubstr_of_middle _ _ hj

theorem entityIdAux_append_of_no_q (l₁ l₂ : List Char) (h : ∀ c ∈ l₁, c ≠ 'Q') :
    entityIdAux (l₁ ++ l₂) = entityIdAux l₂ := by
  induction l₁ with
  | nil => rfl
  | cons c rest ih =>
    have hc : (c == 'Q') = false := beq_eq_false_iff_ne.mpr (h c (List.mem_cons_self c rest))
    simp only [List.cons_append, entityIdAux, hc, Bool.false_and, Bool.false_eq_true,
      if_false]
    exact ih (fun x hx => h x (List.mem_cons_of_mem c hx))

theorem extractEntityId_wdUri (qid : String) (h : isQid qid = true) :
    extractEntityId (wdEntityPrefix ++ qid) = qid := by
  unfold extractEntityId
  rw [String.data_append]
  rw [entityIdAux_append_of_no_q wdEntityPrefix.data qid.data (by decide)]
  cases hq : qid.data with
  | nil => simp [isQid, hq] at h
  | cons c rest =>
    simp only [isQid, hq] at h
    simp only [entityIdAux, h, if_true]
    rw [← hq]

theorem excludeFilterHolds_not_mem {ids : List String} {qid : String}
    (h : excludeFilterHolds ids (wdEntityPrefix ++ qid)) : qid ∉ ids := by
  intro hmem
  have hne : ids ≠ [] := List.ne_nil_of_mem hmem
  exact h hne (List.mem_map_of_mem _ hmem)

theorem parseShipResult_id (js : JsOracles) (first : WikidataShipResult)
    (rest : List WikidataShipResult) (s : SelectedShip)
    (h : parseShipResult js (first :: rest) = some s) :
    s.id = extractEntityId first.ship := by
  simp only [parseShipResult, Option.some.injEq] at h
  rw [← h]

/-- C4: for a non-empty exclusion set both built queries contain the NOT IN
exclusion filter, which itself lists `wd:<id>` for each excluded id (so every
query contains every listed id); the empty set emits no filter text; and a
binding satisfying the denotation of the emitted filter — hence the candidate
parsed from such rows — carries an id outside the supplied set. -/
theorem exclusion_filter_correct :
    (∀ ids mode offset, ids ≠ ([] : List String) →
      ContainsSubstr (buildCountQuery ids mode) (buildExcludeFilter ids)
      ∧ ContainsSubstr (buildShipQuery ids offset mode) (buildExcludeFilter ids)
      ∧ ∀ id ∈ ids,
          ContainsSubstr (buildCountQuery ids mode) ("wd:" ++ id)
          ∧ ContainsSubstr (buildShipQuery ids offset mode) ("wd:" ++ id))
    ∧ buildExcludeFilter [] = ""
    ∧ (∀ ids qid, excludeFilterHolds ids (wdEntityPrefix ++ qid) → qid ∉ ids)
    ∧ (∀ js ids first rest s qid, parseShipResult js (first :: rest) = some s →
        excludeFilterHolds ids first.ship → first.ship = wdEntityPrefix ++ qid →
        isQid qid = true → s.id = qid ∧ s.id ∉ ids) := by
  refine ⟨?_, rfl, ?_, ?_⟩
  · intro ids mode offset hne
    refine ⟨buildCountQuery_contains_filter ids mode,
            buildShipQuery_contains_filter ids offset mode, ?_⟩
    intro id hid
    exact ⟨containsSubstr_trans (buildCountQuery_contains_filter ids mode)
            (buildExcludeFilter_contains_id hid),
           containsSubstr_trans (buildShipQuery_contains_filter ids offset mode)
            (buildExcludeFilter_contains_id hid)⟩
  · intro ids qid h
    exact excludeFilterHolds_not_mem h
  · intro js ids first rest s qid hp hf huri hq
    have hid := parseShipResult_id js first rest s hp
    rw [huri] at hid hf
    have heq : s.id = qid := by rw [hid, extractEntityId_wdUri qid hq]
    exact ⟨heq, heq ▸ excludeFilterHolds_not_mem hf⟩

theorem exclusion_filter_correct_witness :
    ((["Q5"] : List String) ≠ []
      ∧ ("Q5" : String) ∈ (["Q5"] : List String)
      ∧ excludeFilterHolds ["Q5"] (wdEntityPrefix ++ "Q7"))
    ∧ ContainsSubstr (buildCountQuery ["Q5"] GAME_MODES_main) (buildExcludeFilter ["Q5"])
    ∧ ContainsSubstr (buildCountQuery ["Q5"] GAME_MODES_main) ("wd:" ++ "Q5")
    ∧ ("Q7" : String) ∉ (["Q5"] : List String)
    ∧ museumParsed.id = "Q100" ∧ museumParsed.id ∉ (["Q42"] : List String) :=
  ⟨⟨by decide, by decide, fun _ => by decide⟩,
   (exclusion_filter_correct.1 ["Q5"] GAME_MODES_main 0 (by decide)).1,
   ((exclusion_filter_correct.1 ["Q5"] GAME_MODES_main 0 (by decide)).2.2 "Q5" (by decide)).1,
   exclusion_filter_correct.2.2.1 ["Q5"] "Q7" (fun _ => by decide),
   exclusion_filter_correct.2.2.2 sampleOracles ["Q42"] museumRow [] museumParsed "Q100"
     (by decide) (fun _ => by decide) (by decide) (by decide)⟩

end Tally
